import Mathlib

/-!
# JSON-RPC allowlist filter

A shallow embedding of `jsonrpcfilter.go`: the policy functions
(`stringInSlice`, `isSingleRequestBlocked`, `isBatchRequestBlocked`), the
constructor `New` and the request handler `ServeHTTP`.

`ServeHTTP` is stateful. It is embedded as a function that returns the request
as the handler leaves it (the handler assigns `req.Body`) together with the
ordered list of calls it makes to its collaborators: the body reader, the JSON
decoder, the response writer and the next handler.

The decoder `json.Unmarshal` belongs to Go's standard library, not to this
program; its two uses (target `*JSONRPCRequest` and target `*[]JSONRPCRequest`)
are taken as a parameter of `ServeHTTP`. For the statements about bodies of a
particular JSON shape the decoder is given on JSON values, following the
documentation of `encoding/json`.
-/

set_option autoImplicit false

namespace JsonRpcFilter

/-! ## Data model -/

/-- Go `[]byte`. -/
abbrev Bytes := List UInt8

/-- Config, the plugin configuration. A Go slice of length 0 (nil or empty) is the empty list. -/
structure Config where
  Allowlist : List String
  BatchedRequestLimit : Int
  deriving DecidableEq, Repr

/-- Go `context.Context`; `New` receives one and never uses it. -/
structure Context where
  id : Nat
  deriving DecidableEq, Repr

/-- Go `http.Handler`, known to the filter only as a value it can invoke. -/
structure Handler where
  id : Nat
  deriving DecidableEq, Repr

/-- JSONRPCFilter, the plugin instance. -/
structure JSONRPCFilter where
  next : Handler
  allowlist : List String
  batchedRequestLimit : Int
  name : String
  deriving DecidableEq, Repr

/-- JSONRPCRequest, the call descriptor: the one decoded field is `method`. -/
structure JSONRPCRequest where
  Method : String
  deriving DecidableEq, Repr

/-- Go `io.ReadCloser` as `ioutil.ReadAll` sees it: the stream holds `buf`, its read position
is `off`, and after the last byte it ends with `io.EOF` (`err = none`) or with the read
error `err = some e`. -/
structure ReadCloser where
  buf : Bytes
  off : Nat
  err : Option String
  deriving DecidableEq, Repr

/-- Go `*http.Request`, with the fields a handler down the chain reads. -/
structure Request where
  Method : String
  URL : String
  Header : List (String × String)
  Body : ReadCloser
  deriving DecidableEq, Repr

/-- The two targets `ServeHTTP` passes to `json.Unmarshal`. -/
inductive Target where
  | single
  | batch
  deriving DecidableEq, Repr

/-- One call from `ServeHTTP` to a collaborator. -/
inductive Effect where
  /-- The call `ioutil.ReadAll(req.Body)`. -/
  | readAll
  /-- The call `req.Body.Close()`, on the body the request arrived with. -/
  | close
  /-- The call `json.Unmarshal(body, &target)`. -/
  | unmarshal (target : Target)
  /-- The call `http.Error(rw, msg, code)`. -/
  | error (msg : String) (code : Nat)
  /-- The call `jf.next.ServeHTTP(rw, req)`, with the request as it is at the call. -/
  | serve (h : Handler) (req : Request)
  deriving DecidableEq, Repr

/-- The two uses of `json.Unmarshal` in `ServeHTTP`, by target type. `Except.error` carries the
text of the decode error. -/
structure Unmarshal where
  single : Bytes → Except String JSONRPCRequest
  batch : Bytes → Except String (List JSONRPCRequest)

def StatusForbidden : Nat := 403

def StatusInternalServerError : Nat := 500

/-! ## Library calls on the body -/

/-- Go `ioutil.ReadAll`: the bytes from the read position to the end of the stream, and the
error the stream ended with (`io.EOF` is reported as no error). -/
def ReadAll (r : ReadCloser) : Bytes × Option String :=
  (r.buf.drop r.off, r.err)

/-- Go `bytes.NewBuffer(body)`: a buffer over `body`, read position at the start. -/
def NewBuffer (body : Bytes) : ReadCloser :=
  { buf := body, off := 0, err := none }

/-- Go `ioutil.NopCloser`: the same reader, with a `Close` that does nothing. -/
def NopCloser (r : ReadCloser) : ReadCloser := r

/-! ## Policy -/

/-- The loop of `stringInSlice`. -/
def stringInSlice (target : String) : List String → Bool
  | [] => false
  | b :: rest => if b = target then true else stringInSlice target rest

/-- A call is blocked when its method is not in the allowlist. -/
def JSONRPCFilter.isSingleRequestBlocked (jf : JSONRPCFilter) (req : JSONRPCRequest) : Bool :=
  !stringInSlice req.Method jf.allowlist

/-- The `for _, req := range reqs` loop of `isBatchRequestBlocked`. -/
def JSONRPCFilter.isBatchRequestBlockedLoop (jf : JSONRPCFilter) : List JSONRPCRequest → Bool
  | [] => false
  | req :: rest =>
    if jf.isSingleRequestBlocked req then true else jf.isBatchRequestBlockedLoop rest

/-- A batch is blocked when it is longer than the limit or holds a blocked call. -/
def JSONRPCFilter.isBatchRequestBlocked (jf : JSONRPCFilter) (reqs : List JSONRPCRequest) : Bool :=
  if (reqs.length : Int) > jf.batchedRequestLimit then true
  else jf.isBatchRequestBlockedLoop reqs

/-! ## Construction -/

/-- CreateConfig, the default plugin configuration: an empty allowlist and limit 1. -/
def CreateConfig : Config :=
  { Allowlist := [], BatchedRequestLimit := 1 }

/-- New, the constructor: the Go pair `(http.Handler, error)`, each `none` for `nil`. -/
def New (_ctx : Context) (next : Handler) (config : Config) (name : String) :
    Option JSONRPCFilter × Option String :=
  if config.Allowlist.length = 0 then
    (none, some "allowlist cannot be empty")
  else
    (some { allowlist := config.Allowlist
            batchedRequestLimit := config.BatchedRequestLimit
            next := next
            name := name },
     none)

/-! ## Request handling -/

/-- ServeHTTP, the request handler: the request as it is when the handler returns, and the
calls made, in order. -/
def JSONRPCFilter.ServeHTTP (jf : JSONRPCFilter) (json : Unmarshal) (req0 : Request) :
    Request × List Effect :=
  let (body, err) := ReadAll req0.Body
  let req : Request := { req0 with Body := NopCloser (NewBuffer body) }
  let pre : List Effect := [Effect.readAll, Effect.close]
  match err with
  | some e => (req, pre ++ [Effect.error e StatusInternalServerError])
  | none =>
    match json.single body with
    | Except.ok parsed_request =>
      if jf.isSingleRequestBlocked parsed_request then
        (req, pre ++ [Effect.unmarshal Target.single,
                      Effect.error "JSON-RPC method blocked" StatusForbidden])
      else
        (req, pre ++ [Effect.unmarshal Target.single, Effect.serve jf.next req])
    | Except.error _ =>
      match json.batch body with
      | Except.ok batched_requests =>
        if jf.isBatchRequestBlocked batched_requests then
          (req, pre ++ [Effect.unmarshal Target.single, Effect.unmarshal Target.batch,
                        Effect.error "JSON-RPC methods blocked" StatusForbidden])
        else
          (req, pre ++ [Effect.unmarshal Target.single, Effect.unmarshal Target.batch,
                        Effect.serve jf.next req])
      | Except.error _ =>
        (req, pre ++ [Effect.unmarshal Target.single, Effect.unmarshal Target.batch,
                      Effect.serve jf.next req])

/-! ## Observations on a run -/

/-- The effect is a call of a next handler. -/
def Effect.isForward : Effect → Bool
  | Effect.serve _ _ => true
  | _ => false

/-- The effect is a response written by `http.Error` with status `code`. -/
def Effect.isWrite (code : Nat) : Effect → Bool
  | Effect.error _ c => c == code
  | _ => false

/-! ## The JSON decoder

`json.Unmarshal` is Go's `encoding/json`, which is outside this program. Its behaviour on
the two targets of `ServeHTTP` is written down here as the package documents it: the syntax
check and the reading of the bytes into a JSON value are a parameter `parse`, and the
storing of a JSON value into a `JSONRPCRequest` or a `[]JSONRPCRequest` is defined on JSON
values. A type mismatch does not stop the decoding: the first one is saved and returned as
the error at the end. -/

/-- A JSON document as the decoder reads it: object members in their order, duplicates
kept, keys and strings unquoted, numbers as their literal text. -/
inductive JSON where
  | null
  | bool (b : Bool)
  | number (literal : String)
  | string (s : String)
  | array (elems : List JSON)
  | object (members : List (String × JSON))

/-- The name of the kind of a JSON value in an `UnmarshalTypeError`. -/
def JSON.valueName : JSON → String
  | JSON.null => "null"
  | JSON.bool _ => "bool"
  | JSON.number _ => "number"
  | JSON.string _ => "string"
  | JSON.array _ => "array"
  | JSON.object _ => "object"

/-- The value is a JSON string, number or boolean: a literal other than `null`. -/
def JSON.isScalar : JSON → Bool
  | JSON.bool _ => true
  | JSON.number _ => true
  | JSON.string _ => true
  | _ => false

/-- The text of an `UnmarshalTypeError` for the JSON value `v` and the Go type `goType`. -/
def typeError (v : JSON) (goType : String) : String :=
  "json: cannot unmarshal " ++ v.valueName ++ " into Go value of type " ++ goType

/-- The decoder's `saveError`: only the first error is kept. -/
def saveError (saved : Option String) (e : String) : Option String :=
  match saved with
  | none => some e
  | some first => some first

/-- An object key is taken for the field tagged `json:"method"` when it equals `method`
exactly or up to the case of its letters. -/
def isMethodKey (key : String) : Bool :=
  key.toList.map Char.toLower == "method".toList

/-- Storing a JSON value into the Go string field `Method`: a string is stored, `null`
leaves the field as it is, any other value is a type error and leaves the field as it is. -/
def storeMethod (cur : String) (saved : Option String) : JSON → String × Option String
  | JSON.string s => (s, saved)
  | JSON.null => (cur, saved)
  | v => (cur, saveError saved (typeError v "string"))

/-- Storing the members of a JSON object into a `JSONRPCRequest`, in their order: a member
whose key is taken for `method` is stored into `Method`, every other member is skipped. -/
def storeMembers (cur : JSONRPCRequest) (saved : Option String) :
    List (String × JSON) → JSONRPCRequest × Option String
  | [] => (cur, saved)
  | (key, v) :: rest =>
    if isMethodKey key then
      storeMembers { Method := (storeMethod cur.Method saved v).1 }
        (storeMethod cur.Method saved v).2 rest
    else
      storeMembers cur saved rest

/-- Storing a JSON value into a `JSONRPCRequest`: an object is stored member by member,
`null` leaves the struct as it is, any other value is a type error. -/
def storeRequest (cur : JSONRPCRequest) (saved : Option String) :
    JSON → JSONRPCRequest × Option String
  | JSON.object members => storeMembers cur saved members
  | JSON.null => (cur, saved)
  | v => (cur, saveError saved (typeError v "traefik_jsonrpc_filter.JSONRPCRequest"))

/-- Storing the elements of a JSON array into a slice: each element is stored into a fresh
zero `JSONRPCRequest`, which is appended whether or not the element was a type error. -/
def storeElems (acc : List JSONRPCRequest) (saved : Option String) :
    List JSON → List JSONRPCRequest × Option String
  | [] => (acc, saved)
  | v :: rest =>
    storeElems (acc ++ [(storeRequest { Method := "" } saved v).1])
      (storeRequest { Method := "" } saved v).2 rest

/-- Storing a JSON value into a `[]JSONRPCRequest`: an array is stored element by element,
`null` sets the slice to nil, any other value is a type error. -/
def storeSlice (cur : List JSONRPCRequest) (saved : Option String) :
    JSON → List JSONRPCRequest × Option String
  | JSON.array elems => storeElems [] saved elems
  | JSON.null => ([], saved)
  | v => (cur, saveError saved (typeError v "[]traefik_jsonrpc_filter.JSONRPCRequest"))

/-- The two uses of `json.Unmarshal` in `ServeHTTP`, over a reader `parse` of bytes into
JSON values (`none` for bytes that are not a JSON document): `parsed_request` starts as the
zero struct, `batched_requests` as the empty slice, and the result is an error when the
bytes are not JSON (the text of the syntax error is abridged) or a type error was saved. -/
def jsonUnmarshal (parse : Bytes → Option JSON) : Unmarshal where
  single body :=
    match parse body with
    | none => Except.error "json: syntax error"
    | some v =>
      match (storeRequest { Method := "" } none v).2 with
      | none => Except.ok (storeRequest { Method := "" } none v).1
      | some e => Except.error e
  batch body :=
    match parse body with
    | none => Except.error "json: syntax error"
    | some v =>
      match (storeSlice [] none v).2 with
      | none => Except.ok (storeSlice [] none v).1
      | some e => Except.error e

/-! ## Example inputs -/

/-- The bytes of an ASCII Go string. -/
def bytesOf (s : String) : Bytes :=
  s.toList.map (fun c => UInt8.ofNat c.toNat)

/-- A decoder for the worked examples. On the bodies `{"method":"eth_call"}`,
`{"method":"eth_sendTransaction"}`, `[{"method":"eth_call"},{"method":"eth_call"}]` and
`"not json-rpc at all"` it succeeds or fails as `json.Unmarshal` does and decodes the same
value; the error texts are abridged. Every other body gets a decode error here, whatever
`json.Unmarshal` does with it; the examples use the four bodies above only. -/
def exampleUnmarshal : Unmarshal where
  single body :=
    if body = bytesOf "\x7b\"method\":\"eth_call\"\x7d" then
      Except.ok { Method := "eth_call" }
    else if body = bytesOf "\x7b\"method\":\"eth_sendTransaction\"\x7d" then
      Except.ok { Method := "eth_sendTransaction" }
    else
      Except.error "json: cannot unmarshal into Go value of type JSONRPCRequest"
  batch body :=
    if body = bytesOf "[\x7b\"method\":\"eth_call\"\x7d,\x7b\"method\":\"eth_call\"\x7d]" then
      Except.ok [{ Method := "eth_call" }, { Method := "eth_call" }]
    else
      Except.error "json: cannot unmarshal into Go value of type []JSONRPCRequest"

/-- A reader for the worked examples: the JSON value of each of the bodies `null`,
`"not json-rpc at all"`, `{"method":"eth_call"}`, `{"method":""}`, `{"id":1}`,
`{"METHOD":"eth_call"}` and `[{"method":"eth_sendTransaction"},1]`. Every other body is not read here; the examples
use these bodies only. -/
def exampleParse (body : Bytes) : Option JSON :=
  if body = bytesOf "null" then
    some JSON.null
  else if body = bytesOf "\"not json-rpc at all\"" then
    some (JSON.string "not json-rpc at all")
  else if body = bytesOf "\x7b\"method\":\"eth_call\"\x7d" then
    some (JSON.object [("method", JSON.string "eth_call")])
  else if body = bytesOf "\x7b\"method\":\"\"\x7d" then
    some (JSON.object [("method", JSON.string "")])
  else if body = bytesOf "\x7b\"id\":1\x7d" then
    some (JSON.object [("id", JSON.number "1")])
  else if body = bytesOf "\x7b\"METHOD\":\"eth_call\"\x7d" then
    some (JSON.object [("METHOD", JSON.string "eth_call")])
  else if body = bytesOf "[\x7b\"method\":\"eth_sendTransaction\"\x7d,1]" then
    some (JSON.array [JSON.object [("method", JSON.string "eth_sendTransaction")],
      JSON.number "1"])
  else
    none

/-- A filter that allows `eth_call` only, with the given batch limit. -/
def exampleFilter (limit : Int) : JSONRPCFilter :=
  { next := { id := 7 }, allowlist := ["eth_call"], batchedRequestLimit := limit, name := "f" }

/-- A POST request whose body stream holds `buf`, has been read up to `off`, and ends as
`err` says. -/
def exampleRequestAt (buf : Bytes) (off : Nat) (err : Option String) : Request :=
  { Method := "POST", URL := "/", Header := [("Content-Type", "application/json")],
    Body := { buf := buf, off := off, err := err } }

/-- A POST request whose body stream holds `body`, unread, and ends as `err` says. -/
def exampleRequest (body : Bytes) (err : Option String) : Request :=
  exampleRequestAt body 0 err

/-! ## Lemmas on the policy -/

theorem stringInSlice_iff (target : String) (list : List String) :
    stringInSlice target list = true ↔ target ∈ list := by
  induction list with
  | nil => simp [stringInSlice]
  | cons b rest ih =>
    by_cases h : b = target
    · simp [stringInSlice, h]
    · have h2 : ¬ target = b := fun e => h e.symm
      simp [stringInSlice, h, h2, ih]

theorem isSingleRequestBlocked_iff (jf : JSONRPCFilter) (c : JSONRPCRequest) :
    jf.isSingleRequestBlocked c = true ↔ c.Method ∉ jf.allowlist := by
  rw [← stringInSlice_iff]
  simp [JSONRPCFilter.isSingleRequestBlocked]

theorem isBatchRequestBlockedLoop_iff (jf : JSONRPCFilter) (reqs : List JSONRPCRequest) :
    jf.isBatchRequestBlockedLoop reqs = true ↔
      ∃ c ∈ reqs, jf.isSingleRequestBlocked c = true := by
  induction reqs with
  | nil => simp [JSONRPCFilter.isBatchRequestBlockedLoop]
  | cons req rest ih =>
    by_cases h : jf.isSingleRequestBlocked req = true
    · simp [JSONRPCFilter.isBatchRequestBlockedLoop, h]
    · simp [JSONRPCFilter.isBatchRequestBlockedLoop, h, ih]

theorem batch_blocked_of_limit_lt (jf : JSONRPCFilter) (S : List JSONRPCRequest)
    (hlen : jf.batchedRequestLimit < (S.length : Int)) :
    jf.isBatchRequestBlocked S = true := by
  simp only [JSONRPCFilter.isBatchRequestBlocked, gt_iff_lt, hlen, if_true]

/-! ## The policy evaluator -/

/-- C1: for every filter and every call descriptor, `isSingleRequestBlocked` returns false
exactly when the method of the call is an element of the allowlist, that is, equal as a
string to one of its entries. -/
theorem isSingleRequestBlocked_false_iff (jf : JSONRPCFilter) (c : JSONRPCRequest) :
    jf.isSingleRequestBlocked c = false ↔ c.Method ∈ jf.allowlist := by
  have h := isSingleRequestBlocked_iff jf c
  constructor
  · intro hf
    by_contra hn
    rw [h.mpr hn] at hf
    exact Bool.noConfusion hf
  · intro hb
    cases hv : jf.isSingleRequestBlocked c with
    | false => rfl
    | true => exact absurd hb (h.mp hv)

/-- C2: for every filter and every sequence of calls no longer than the batch limit,
`isBatchRequestBlocked` returns true exactly when some call of the sequence has a method
that is not in the allowlist. -/
theorem isBatchRequestBlocked_within_limit (jf : JSONRPCFilter) (S : List JSONRPCRequest)
    (hlen : (S.length : Int) ≤ jf.batchedRequestLimit) :
    jf.isBatchRequestBlocked S = true ↔ ∃ c ∈ S, c.Method ∉ jf.allowlist := by
  have hgt : ¬ (S.length : Int) > jf.batchedRequestLimit := not_lt.mpr hlen
  simp only [JSONRPCFilter.isBatchRequestBlocked, hgt, if_false,
    isBatchRequestBlockedLoop_iff, isSingleRequestBlocked_iff]

/-- Witness of C2: a batch of two calls under limit 2, the second one not allowed. -/
theorem isBatchRequestBlocked_within_limit_witness :
    ((([{ Method := "eth_call" }, { Method := "eth_sendTransaction" }] :
        List JSONRPCRequest).length : Int) ≤ (exampleFilter 2).batchedRequestLimit) ∧
    ((exampleFilter 2).isBatchRequestBlocked
        [{ Method := "eth_call" }, { Method := "eth_sendTransaction" }] = true ↔
      ∃ c ∈ ([{ Method := "eth_call" }, { Method := "eth_sendTransaction" }] :
        List JSONRPCRequest), c.Method ∉ (exampleFilter 2).allowlist) :=
  ⟨by decide, isBatchRequestBlocked_within_limit (exampleFilter 2)
    [{ Method := "eth_call" }, { Method := "eth_sendTransaction" }] (by decide)⟩

/-- C3: for every filter and every sequence of calls longer than the batch limit,
`isBatchRequestBlocked` returns true, whatever the methods and the allowlist. -/
theorem isBatchRequestBlocked_over_limit (jf : JSONRPCFilter) (S : List JSONRPCRequest)
    (hlen : (S.length : Int) > jf.batchedRequestLimit) :
    jf.isBatchRequestBlocked S = true := by
  simp only [JSONRPCFilter.isBatchRequestBlocked, hlen, if_true]

/-- Witness of C3: two allowed calls under limit 1 are blocked. -/
theorem isBatchRequestBlocked_over_limit_witness :
    ((([{ Method := "eth_call" }, { Method := "eth_call" }] :
        List JSONRPCRequest).length : Int) > (exampleFilter 1).batchedRequestLimit) ∧
    (∀ c ∈ ([{ Method := "eth_call" }, { Method := "eth_call" }] : List JSONRPCRequest),
      c.Method ∈ (exampleFilter 1).allowlist) ∧
    (exampleFilter 1).isBatchRequestBlocked
      [{ Method := "eth_call" }, { Method := "eth_call" }] = true :=
  ⟨by decide, by decide, isBatchRequestBlocked_over_limit (exampleFilter 1)
    [{ Method := "eth_call" }, { Method := "eth_call" }] (by decide)⟩

/-! ## Construction -/

/-- C10: for every configuration whose allowlist has length 0, and every context, next
handler, name and batch limit, `New` returns a nil handler together with a non-nil error,
the error `allowlist cannot be empty`. -/
theorem New_empty_allowlist (ctx : Context) (next : Handler) (config : Config) (name : String)
    (hlen : config.Allowlist.length = 0) :
    New ctx next config name = (none, some "allowlist cannot be empty") ∧
      (New ctx next config name).1 = none ∧ (New ctx next config name).2 ≠ none := by
  simp [New, hlen]

/-- Witness of C10: the default allowlist, which is empty, with limit 5. -/
theorem New_empty_allowlist_witness :
    ({ Allowlist := [], BatchedRequestLimit := 5 } : Config).Allowlist.length = 0 ∧
    (New { id := 0 } { id := 7 } { Allowlist := [], BatchedRequestLimit := 5 } "f" =
        (none, some "allowlist cannot be empty") ∧
      (New { id := 0 } { id := 7 } { Allowlist := [], BatchedRequestLimit := 5 } "f").1 = none ∧
      (New { id := 0 } { id := 7 } { Allowlist := [], BatchedRequestLimit := 5 } "f").2 ≠ none) :=
  ⟨rfl, New_empty_allowlist { id := 0 } { id := 7 }
    { Allowlist := [], BatchedRequestLimit := 5 } "f" rfl⟩

/-! ## Lemmas on a run of the handler -/

/-- The five shapes of a run: the request left behind is always the incoming one with the
body replaced, and the calls made are one of five lists. -/
theorem ServeHTTP_run (jf : JSONRPCFilter) (json : Unmarshal) (req : Request) :
    (jf.ServeHTTP json req).1 =
      { req with Body := NopCloser (NewBuffer (ReadAll req.Body).1) } ∧
    ((∃ e : String, (ReadAll req.Body).2 = some e ∧ (jf.ServeHTTP json req).2 =
        [Effect.readAll, Effect.close, Effect.error e StatusInternalServerError]) ∨
     (jf.ServeHTTP json req).2 =
        [Effect.readAll, Effect.close, Effect.unmarshal Target.single,
         Effect.error "JSON-RPC method blocked" StatusForbidden] ∨
     (jf.ServeHTTP json req).2 =
        [Effect.readAll, Effect.close, Effect.unmarshal Target.single,
         Effect.serve jf.next
           { req with Body := NopCloser (NewBuffer (ReadAll req.Body).1) }] ∨
     (jf.ServeHTTP json req).2 =
        [Effect.readAll, Effect.close, Effect.unmarshal Target.single,
         Effect.unmarshal Target.batch,
         Effect.error "JSON-RPC methods blocked" StatusForbidden] ∨
     (jf.ServeHTTP json req).2 =
        [Effect.readAll, Effect.close, Effect.unmarshal Target.single,
         Effect.unmarshal Target.batch,
         Effect.serve jf.next
           { req with Body := NopCloser (NewBuffer (ReadAll req.Body).1) }]) := by
  cases herr : req.Body.err with
  | some e =>
    refine ⟨?_, Or.inl ⟨e, ?_, ?_⟩⟩ <;> simp [JSONRPCFilter.ServeHTTP, ReadAll, herr]
  | none =>
    cases hs : json.single (List.drop req.Body.off req.Body.buf) with
    | ok c =>
      cases hb : jf.isSingleRequestBlocked c with
      | true =>
        refine ⟨?_, Or.inr (Or.inl ?_)⟩ <;>
          simp [JSONRPCFilter.ServeHTTP, ReadAll, herr, hs, hb]
      | false =>
        refine ⟨?_, Or.inr (Or.inr (Or.inl ?_))⟩ <;>
          simp [JSONRPCFilter.ServeHTTP, ReadAll, herr, hs, hb]
    | error e1 =>
      cases hbt : json.batch (List.drop req.Body.off req.Body.buf) with
      | ok S =>
        cases hb : jf.isBatchRequestBlocked S with
        | true =>
          refine ⟨?_, Or.inr (Or.inr (Or.inr (Or.inl ?_)))⟩ <;>
            simp [JSONRPCFilter.ServeHTTP, ReadAll, herr, hs, hbt, hb]
        | false =>
          refine ⟨?_, Or.inr (Or.inr (Or.inr (Or.inr ?_)))⟩ <;>
            simp [JSONRPCFilter.ServeHTTP, ReadAll, herr, hs, hbt, hb]
      | error e2 =>
        refine ⟨?_, Or.inr (Or.inr (Or.inr (Or.inr ?_)))⟩ <;>
          simp [JSONRPCFilter.ServeHTTP, ReadAll, herr, hs, hbt]

/-! ## The request interceptor -/

/-- C4: when the body is read without error and decodes as a single call `c`, `ServeHTTP`
writes 403 `JSON-RPC method blocked` and does not call the next handler if `c` is blocked,
and otherwise calls the next handler and writes nothing; the batch decode is not attempted,
and the run is the same for every batch limit and every batch decoder. -/
theorem ServeHTTP_single (jf : JSONRPCFilter) (json : Unmarshal) (req : Request)
    (c : JSONRPCRequest)
    (hread : (ReadAll req.Body).2 = none)
    (hdec : json.single (ReadAll req.Body).1 = Except.ok c) :
    (jf.isSingleRequestBlocked c = true →
      (jf.ServeHTTP json req).2 =
        [Effect.readAll, Effect.close, Effect.unmarshal Target.single,
         Effect.error "JSON-RPC method blocked" StatusForbidden]) ∧
    (jf.isSingleRequestBlocked c = false →
      (jf.ServeHTTP json req).2 =
        [Effect.readAll, Effect.close, Effect.unmarshal Target.single,
         Effect.serve jf.next
           { req with Body := NopCloser (NewBuffer (ReadAll req.Body).1) }]) ∧
    Effect.unmarshal Target.batch ∉ (jf.ServeHTTP json req).2 ∧
    (∀ (limit : Int) (batch : Bytes → Except String (List JSONRPCRequest)),
      JSONRPCFilter.ServeHTTP { jf with batchedRequestLimit := limit }
          { json with batch := batch } req = jf.ServeHTTP json req) := by
  simp only [ReadAll] at hread hdec
  refine ⟨?_, ?_, ?_, ?_⟩
  · intro hb
    simp [JSONRPCFilter.ServeHTTP, ReadAll, hread, hdec, hb]
  · intro hb
    simp [JSONRPCFilter.ServeHTTP, ReadAll, hread, hdec, hb]
  · cases hb : jf.isSingleRequestBlocked c <;>
      simp [JSONRPCFilter.ServeHTTP, ReadAll, hread, hdec, hb]
  · intro limit batch
    simp [JSONRPCFilter.ServeHTTP, ReadAll, hread, hdec, JSONRPCFilter.isSingleRequestBlocked]

/-- Witness of C4: an allowed single call is forwarded by a filter whose batch limit is 0. -/
theorem ServeHTTP_single_witness :
    (ReadAll (exampleRequest (bytesOf "\x7b\"method\":\"eth_call\"\x7d") none).Body).2 = none ∧
    exampleUnmarshal.single
        (ReadAll (exampleRequest (bytesOf "\x7b\"method\":\"eth_call\"\x7d") none).Body).1 =
      Except.ok { Method := "eth_call" } ∧
    ((exampleFilter 0).ServeHTTP exampleUnmarshal
        (exampleRequest (bytesOf "\x7b\"method\":\"eth_call\"\x7d") none)).2 =
      [Effect.readAll, Effect.close, Effect.unmarshal Target.single,
       Effect.serve (exampleFilter 0).next
         (exampleRequest (bytesOf "\x7b\"method\":\"eth_call\"\x7d") none)] :=
  ⟨rfl, rfl,
    (ServeHTTP_single (exampleFilter 0) exampleUnmarshal
      (exampleRequest (bytesOf "\x7b\"method\":\"eth_call\"\x7d") none)
      { Method := "eth_call" } rfl rfl).2.1 (by decide)⟩

/-- C5: when the body is read without error, does not decode as a single call and decodes
as a sequence `S` of calls, `ServeHTTP` writes 403 `JSON-RPC methods blocked` and does not
call the next handler if `S` is blocked, and otherwise calls the next handler and writes
nothing. -/
theorem ServeHTTP_batch (jf : JSONRPCFilter) (json : Unmarshal) (req : Request)
    (e : String) (S : List JSONRPCRequest)
    (hread : (ReadAll req.Body).2 = none)
    (hsingle : json.single (ReadAll req.Body).1 = Except.error e)
    (hdec : json.batch (ReadAll req.Body).1 = Except.ok S) :
    (jf.isBatchRequestBlocked S = true →
      (jf.ServeHTTP json req).2 =
        [Effect.readAll, Effect.close, Effect.unmarshal Target.single,
         Effect.unmarshal Target.batch,
         Effect.error "JSON-RPC methods blocked" StatusForbidden]) ∧
    (jf.isBatchRequestBlocked S = false →
      (jf.ServeHTTP json req).2 =
        [Effect.readAll, Effect.close, Effect.unmarshal Target.single,
         Effect.unmarshal Target.batch,
         Effect.serve jf.next
           { req with Body := NopCloser (NewBuffer (ReadAll req.Body).1) }]) := by
  simp only [ReadAll] at hread hsingle hdec
  refine ⟨?_, ?_⟩
  · intro hb
    simp [JSONRPCFilter.ServeHTTP, ReadAll, hread, hsingle, hdec, hb]
  · intro hb
    simp [JSONRPCFilter.ServeHTTP, ReadAll, hread, hsingle, hdec, hb]

/-- Witness of C5: two allowed calls under limit 1 are answered 403 `JSON-RPC methods
blocked`. -/
theorem ServeHTTP_batch_witness :
    (ReadAll (exampleRequest
      (bytesOf "[\x7b\"method\":\"eth_call\"\x7d,\x7b\"method\":\"eth_call\"\x7d]")
      none).Body).2 = none ∧
    exampleUnmarshal.single (ReadAll (exampleRequest
      (bytesOf "[\x7b\"method\":\"eth_call\"\x7d,\x7b\"method\":\"eth_call\"\x7d]")
      none).Body).1 =
      Except.error "json: cannot unmarshal into Go value of type JSONRPCRequest" ∧
    exampleUnmarshal.batch (ReadAll (exampleRequest
      (bytesOf "[\x7b\"method\":\"eth_call\"\x7d,\x7b\"method\":\"eth_call\"\x7d]")
      none).Body).1 =
      Except.ok [{ Method := "eth_call" }, { Method := "eth_call" }] ∧
    ((exampleFilter 1).ServeHTTP exampleUnmarshal (exampleRequest
      (bytesOf "[\x7b\"method\":\"eth_call\"\x7d,\x7b\"method\":\"eth_call\"\x7d]")
      none)).2 =
      [Effect.readAll, Effect.close, Effect.unmarshal Target.single,
       Effect.unmarshal Target.batch,
       Effect.error "JSON-RPC methods blocked" StatusForbidden] :=
  ⟨rfl, rfl, rfl,
    (ServeHTTP_batch (exampleFilter 1) exampleUnmarshal (exampleRequest
      (bytesOf "[\x7b\"method\":\"eth_call\"\x7d,\x7b\"method\":\"eth_call\"\x7d]")
      none) "json: cannot unmarshal into Go value of type JSONRPCRequest"
      [{ Method := "eth_call" }, { Method := "eth_call" }] rfl rfl rfl).1 (by decide)⟩

/-- C6: when the body is read without error and both decodes fail, `ServeHTTP` calls the
next handler and writes no response, and the run is the same for every allowlist and every
batch limit. -/
theorem ServeHTTP_fail_open (jf : JSONRPCFilter) (json : Unmarshal) (req : Request)
    (e1 e2 : String)
    (hread : (ReadAll req.Body).2 = none)
    (hsingle : json.single (ReadAll req.Body).1 = Except.error e1)
    (hbatch : json.batch (ReadAll req.Body).1 = Except.error e2) :
    (jf.ServeHTTP json req).2 =
      [Effect.readAll, Effect.close, Effect.unmarshal Target.single,
       Effect.unmarshal Target.batch,
       Effect.serve jf.next
         { req with Body := NopCloser (NewBuffer (ReadAll req.Body).1) }] ∧
    (∀ (allowlist : List String) (limit : Int),
      JSONRPCFilter.ServeHTTP
          { jf with allowlist := allowlist, batchedRequestLimit := limit } json req =
        jf.ServeHTTP json req) := by
  simp only [ReadAll] at hread hsingle hbatch
  refine ⟨?_, ?_⟩
  · simp [JSONRPCFilter.ServeHTTP, ReadAll, hread, hsingle, hbatch]
  · intro allowlist limit
    simp [JSONRPCFilter.ServeHTTP, ReadAll, hread, hsingle, hbatch]

/-- Witness of C6: the body `"not json-rpc at all"` is forwarded. -/
theorem ServeHTTP_fail_open_witness :
    (ReadAll (exampleRequest (bytesOf "\"not json-rpc at all\"") none).Body).2 = none ∧
    exampleUnmarshal.single
        (ReadAll (exampleRequest (bytesOf "\"not json-rpc at all\"") none).Body).1 =
      Except.error "json: cannot unmarshal into Go value of type JSONRPCRequest" ∧
    exampleUnmarshal.batch
        (ReadAll (exampleRequest (bytesOf "\"not json-rpc at all\"") none).Body).1 =
      Except.error "json: cannot unmarshal into Go value of type []JSONRPCRequest" ∧
    ((exampleFilter 1).ServeHTTP exampleUnmarshal
        (exampleRequest (bytesOf "\"not json-rpc at all\"") none)).2 =
      [Effect.readAll, Effect.close, Effect.unmarshal Target.single,
       Effect.unmarshal Target.batch,
       Effect.serve (exampleFilter 1).next
         (exampleRequest (bytesOf "\"not json-rpc at all\"") none)] :=
  ⟨rfl, rfl, rfl,
    (ServeHTTP_fail_open (exampleFilter 1) exampleUnmarshal
      (exampleRequest (bytesOf "\"not json-rpc at all\"") none)
      "json: cannot unmarshal into Go value of type JSONRPCRequest"
      "json: cannot unmarshal into Go value of type []JSONRPCRequest" rfl rfl rfl).1⟩

/-- C7: when the body read returns the error `e`, `ServeHTTP` writes 500 with the text of
`e` and does not call the next handler, whatever bytes were read, whatever they would decode
to, and whatever the allowlist and the limit. -/
theorem ServeHTTP_read_error (jf : JSONRPCFilter) (json : Unmarshal) (req : Request)
    (e : String)
    (hread : (ReadAll req.Body).2 = some e) :
    (jf.ServeHTTP json req).2 =
      [Effect.readAll, Effect.close, Effect.error e StatusInternalServerError] ∧
    (∀ (h : Handler) (r : Request), Effect.serve h r ∉ (jf.ServeHTTP json req).2) := by
  simp only [ReadAll] at hread
  refine ⟨?_, ?_⟩
  · simp [JSONRPCFilter.ServeHTTP, ReadAll, hread]
  · intro h r
    simp [JSONRPCFilter.ServeHTTP, ReadAll, hread]

/-- Witness of C7: the read fails after the bytes of an allowed call have arrived. -/
theorem ServeHTTP_read_error_witness :
    (ReadAll (exampleRequest (bytesOf "\x7b\"method\":\"eth_call\"\x7d")
      (some "unexpected EOF")).Body).2 = some "unexpected EOF" ∧
    exampleUnmarshal.single (ReadAll (exampleRequest
      (bytesOf "\x7b\"method\":\"eth_call\"\x7d") (some "unexpected EOF")).Body).1 =
      Except.ok { Method := "eth_call" } ∧
    (exampleFilter 1).isSingleRequestBlocked { Method := "eth_call" } = false ∧
    ((exampleFilter 1).ServeHTTP exampleUnmarshal
        (exampleRequest (bytesOf "\x7b\"method\":\"eth_call\"\x7d")
          (some "unexpected EOF"))).2 =
      [Effect.readAll, Effect.close,
       Effect.error "unexpected EOF" StatusInternalServerError] :=
  ⟨rfl, rfl, by decide,
    (ServeHTTP_read_error (exampleFilter 1) exampleUnmarshal
      (exampleRequest (bytesOf "\x7b\"method\":\"eth_call\"\x7d") (some "unexpected EOF"))
      "unexpected EOF" rfl).1⟩

/-- C8: one run of `ServeHTTP` performs exactly one of the three actions: call the next
handler, write a 403 response, write a 500 response. The numbers of the three in the run
add up to one. -/
theorem ServeHTTP_exactly_one_action (jf : JSONRPCFilter) (json : Unmarshal) (req : Request) :
    ((jf.ServeHTTP json req).2.countP Effect.isForward) +
      ((jf.ServeHTTP json req).2.countP (Effect.isWrite StatusForbidden)) +
      ((jf.ServeHTTP json req).2.countP (Effect.isWrite StatusInternalServerError)) = 1 := by
  rcases (ServeHTTP_run jf json req).2 with ⟨e, _, h⟩ | h | h | h | h <;>
    rw [h] <;>
    simp [Effect.isForward, Effect.isWrite, StatusForbidden, StatusInternalServerError,
      List.countP_cons]

/-- C9: every request `ServeHTTP` hands to the next handler is the incoming request with its
body replaced by a fresh reader, positioned at the start, that yields exactly the bytes read
from the original body and then ends without error; and the body of the request is so
replaced on every path, the 500 path included. -/
theorem ServeHTTP_body_restored (jf : JSONRPCFilter) (json : Unmarshal) (req : Request) :
    (∀ (h : Handler) (r : Request), Effect.serve h r ∈ (jf.ServeHTTP json req).2 →
      h = jf.next ∧
      r = { req with Body := NopCloser (NewBuffer (ReadAll req.Body).1) } ∧
      r.Body.off = 0 ∧
      ReadAll r.Body = ((ReadAll req.Body).1, none)) ∧
    (jf.ServeHTTP json req).1 =
      { req with Body := NopCloser (NewBuffer (ReadAll req.Body).1) } ∧
    (∀ e : String, (ReadAll req.Body).2 = some e →
      (jf.ServeHTTP json req).1.Body = NopCloser (NewBuffer (ReadAll req.Body).1)) := by
  obtain ⟨hall, hrun⟩ := ServeHTTP_run jf json req
  refine ⟨?_, hall, ?_⟩
  · intro h r hmem
    have hr : h = jf.next ∧
        r = { req with Body := NopCloser (NewBuffer (ReadAll req.Body).1) } := by
      rcases hrun with ⟨e, _, ht⟩ | ht | ht | ht | ht <;>
        rw [ht] at hmem <;> simp at hmem <;> exact hmem
    refine ⟨hr.1, hr.2, ?_, ?_⟩
    · rw [hr.2]; rfl
    · rw [hr.2]; rfl
  · intro e _
    rw [hall]

/-- Witness of C9: the request arrives with three bytes of its body already consumed; the
next handler gets a reader at position 0 over the remaining bytes. -/
theorem ServeHTTP_body_restored_witness :
    Effect.serve { id := 7 } (exampleRequestAt (bytesOf "\"not json-rpc at all\"") 0 none) ∈
      ((exampleFilter 1).ServeHTTP exampleUnmarshal
        (exampleRequestAt (bytesOf "abc\"not json-rpc at all\"") 3 none)).2 ∧
    ReadAll (exampleRequestAt (bytesOf "\"not json-rpc at all\"") 0 none).Body =
      ((ReadAll (exampleRequestAt (bytesOf "abc\"not json-rpc at all\"") 3 none).Body).1, none) :=
  ⟨by decide,
    ((ServeHTTP_body_restored (exampleFilter 1) exampleUnmarshal
      (exampleRequestAt (bytesOf "abc\"not json-rpc at all\"") 3 none)).1 { id := 7 }
      (exampleRequestAt (bytesOf "\"not json-rpc at all\"") 0 none) (by decide)).2.2.2⟩

/-! ## Relations between verdicts -/

/-- C11: for every filter whose batch limit is at least 1, whatever its allowlist,
`isBatchRequestBlocked` returns false on the empty sequence. -/
theorem isBatchRequestBlocked_nil (jf : JSONRPCFilter) (hlimit : 1 ≤ jf.batchedRequestLimit) :
    jf.isBatchRequestBlocked [] = false := by
  have hgt : ¬ ((([] : List JSONRPCRequest).length : Int) > jf.batchedRequestLimit) := by
    simp only [List.length_nil, Nat.cast_zero, gt_iff_lt, not_lt]
    omega
  simp only [JSONRPCFilter.isBatchRequestBlocked, hgt, if_false,
    JSONRPCFilter.isBatchRequestBlockedLoop]

/-- Witness of C11: the empty batch under limit 1. -/
theorem isBatchRequestBlocked_nil_witness :
    1 ≤ (exampleFilter 1).batchedRequestLimit ∧
    (exampleFilter 1).isBatchRequestBlocked [] = false :=
  ⟨by decide, isBatchRequestBlocked_nil (exampleFilter 1) (by decide)⟩

/-- C14: the batch verdict does not depend on the order of the calls: on two sequences
that are permutations of each other `isBatchRequestBlocked` returns the same value. -/
theorem isBatchRequestBlocked_perm (jf : JSONRPCFilter) (S T : List JSONRPCRequest)
    (hperm : List.Perm T S) :
    jf.isBatchRequestBlocked T = jf.isBatchRequestBlocked S := by
  have hloop : jf.isBatchRequestBlockedLoop T = jf.isBatchRequestBlockedLoop S := by
    rw [Bool.eq_iff_iff, isBatchRequestBlockedLoop_iff, isBatchRequestBlockedLoop_iff]
    constructor
    · rintro ⟨c, hc, hb⟩
      exact ⟨c, hperm.mem_iff.mp hc, hb⟩
    · rintro ⟨c, hc, hb⟩
      exact ⟨c, hperm.mem_iff.mpr hc, hb⟩
  simp only [JSONRPCFilter.isBatchRequestBlocked, hperm.length_eq, hloop]

/-- Witness of C14: a blocked call first or last in a batch of two. -/
theorem isBatchRequestBlocked_perm_witness :
    List.Perm ([{ Method := "eth_sendTransaction" }, { Method := "eth_call" }] :
        List JSONRPCRequest) [{ Method := "eth_call" }, { Method := "eth_sendTransaction" }] ∧
    (exampleFilter 2).isBatchRequestBlocked
        [{ Method := "eth_sendTransaction" }, { Method := "eth_call" }] =
      (exampleFilter 2).isBatchRequestBlocked
        [{ Method := "eth_call" }, { Method := "eth_sendTransaction" }] :=
  ⟨List.Perm.swap _ _ [], isBatchRequestBlocked_perm (exampleFilter 2)
    [{ Method := "eth_call" }, { Method := "eth_sendTransaction" }]
    [{ Method := "eth_sendTransaction" }, { Method := "eth_call" }]
    (List.Perm.swap _ _ [])⟩

/-- C15: the allowlist is used as a lookup set: two filters with the same batch limit whose
allowlists hold the same strings (in any order, with any repetition) agree in
`isSingleRequestBlocked` on every call and in `isBatchRequestBlocked` on every sequence. -/
theorem verdicts_depend_on_allowlist_set (jf1 jf2 : JSONRPCFilter)
    (hlimit : jf1.batchedRequestLimit = jf2.batchedRequestLimit)
    (hset : ∀ s : String, s ∈ jf1.allowlist ↔ s ∈ jf2.allowlist) :
    (∀ c : JSONRPCRequest, jf1.isSingleRequestBlocked c = jf2.isSingleRequestBlocked c) ∧
    (∀ S : List JSONRPCRequest, jf1.isBatchRequestBlocked S = jf2.isBatchRequestBlocked S) := by
  have hsingle : ∀ c : JSONRPCRequest,
      jf1.isSingleRequestBlocked c = jf2.isSingleRequestBlocked c := by
    intro c
    rw [Bool.eq_iff_iff, isSingleRequestBlocked_iff, isSingleRequestBlocked_iff, hset]
  refine ⟨hsingle, ?_⟩
  intro S
  have hloop : jf1.isBatchRequestBlockedLoop S = jf2.isBatchRequestBlockedLoop S := by
    rw [Bool.eq_iff_iff, isBatchRequestBlockedLoop_iff, isBatchRequestBlockedLoop_iff]
    simp only [hsingle]
  simp only [JSONRPCFilter.isBatchRequestBlocked, hlimit, hloop]

/-- Witness of C15: the allowlist `[a, b]` against `[b, a, b]`, another next handler and
another name. -/
theorem verdicts_depend_on_allowlist_set_witness :
    (∀ c : JSONRPCRequest,
      JSONRPCFilter.isSingleRequestBlocked
          { next := { id := 1 }, allowlist := ["a", "b"], batchedRequestLimit := 2,
            name := "x" } c =
        JSONRPCFilter.isSingleRequestBlocked
          { next := { id := 2 }, allowlist := ["b", "a", "b"], batchedRequestLimit := 2,
            name := "y" } c) ∧
    (∀ S : List JSONRPCRequest,
      JSONRPCFilter.isBatchRequestBlocked
          { next := { id := 1 }, allowlist := ["a", "b"], batchedRequestLimit := 2,
            name := "x" } S =
        JSONRPCFilter.isBatchRequestBlocked
          { next := { id := 2 }, allowlist := ["b", "a", "b"], batchedRequestLimit := 2,
            name := "y" } S) :=
  verdicts_depend_on_allowlist_set
    { next := { id := 1 }, allowlist := ["a", "b"], batchedRequestLimit := 2, name := "x" }
    { next := { id := 2 }, allowlist := ["b", "a", "b"], batchedRequestLimit := 2, name := "y" }
    rfl (by intro s; simp only [List.mem_cons, List.mem_singleton, List.not_mem_nil]; tauto)

/-- C18: single and batch forms are judged alike when the limit allows a batch at all: for a
limit of at least 1 the verdict on the one-call batch `[c]` is the verdict on `c`; for a limit
of 0 or less every non-empty batch is blocked, whatever its methods. -/
theorem single_and_batch_consistent (jf : JSONRPCFilter) :
    (1 ≤ jf.batchedRequestLimit →
      ∀ c : JSONRPCRequest, jf.isBatchRequestBlocked [c] = jf.isSingleRequestBlocked c) ∧
    (jf.batchedRequestLimit ≤ 0 →
      ∀ S : List JSONRPCRequest, S ≠ [] → jf.isBatchRequestBlocked S = true) := by
  constructor
  · intro hlimit c
    have hgt : ¬ ((([c] : List JSONRPCRequest).length : Int) > jf.batchedRequestLimit) := by
      simp only [List.length_singleton, Nat.cast_one, gt_iff_lt, not_lt]
      exact hlimit
    simp only [JSONRPCFilter.isBatchRequestBlocked, hgt, if_false,
      JSONRPCFilter.isBatchRequestBlockedLoop]
    cases jf.isSingleRequestBlocked c <;> rfl
  · intro hlimit S hne
    apply batch_blocked_of_limit_lt
    have hpos : 0 < S.length := List.length_pos.mpr hne
    omega

/-- Witness of C18: the one-call batch under limit 1, and the same batch under limit 0. -/
theorem single_and_batch_consistent_witness :
    (1 ≤ (exampleFilter 1).batchedRequestLimit ∧
      (exampleFilter 1).isBatchRequestBlocked [{ Method := "eth_call" }] =
        (exampleFilter 1).isSingleRequestBlocked { Method := "eth_call" }) ∧
    ((exampleFilter 0).batchedRequestLimit ≤ 0 ∧
      ([{ Method := "eth_call" }] : List JSONRPCRequest) ≠ [] ∧
      (exampleFilter 0).isSingleRequestBlocked { Method := "eth_call" } = false ∧
      (exampleFilter 0).isBatchRequestBlocked [{ Method := "eth_call" }] = true) :=
  ⟨⟨by decide,
      (single_and_batch_consistent (exampleFilter 1)).1 (by decide) { Method := "eth_call" }⟩,
    ⟨by decide, by decide, by decide,
      (single_and_batch_consistent (exampleFilter 0)).2 (by decide)
        [{ Method := "eth_call" }] (by decide)⟩⟩

/-- C19: loosening the policy never blocks more: when the second filter allows every method
the first allows and its batch limit is at least the first one, a call the first filter does
not block is not blocked by the second, and a sequence the first filter does not block is not
blocked by the second. -/
theorem loosening_never_blocks_more (jf1 jf2 : JSONRPCFilter)
    (hsub : ∀ s : String, s ∈ jf1.allowlist → s ∈ jf2.allowlist)
    (hlimit : jf1.batchedRequestLimit ≤ jf2.batchedRequestLimit) :
    (∀ c : JSONRPCRequest,
      jf1.isSingleRequestBlocked c = false → jf2.isSingleRequestBlocked c = false) ∧
    (∀ S : List JSONRPCRequest,
      jf1.isBatchRequestBlocked S = false → jf2.isBatchRequestBlocked S = false) := by
  have hsingle : ∀ c : JSONRPCRequest,
      jf2.isSingleRequestBlocked c = true → jf1.isSingleRequestBlocked c = true := by
    intro c h2
    rw [isSingleRequestBlocked_iff] at h2 ⊢
    exact fun h1 => h2 (hsub _ h1)
  refine ⟨?_, ?_⟩
  · intro c h1
    cases h2 : jf2.isSingleRequestBlocked c with
    | false => rfl
    | true => rw [hsingle c h2] at h1; exact Bool.noConfusion h1
  · intro S h1
    cases h2 : jf2.isBatchRequestBlocked S with
    | false => rfl
    | true =>
      exfalso
      by_cases hlen : jf1.batchedRequestLimit < (S.length : Int)
      · rw [batch_blocked_of_limit_lt jf1 S hlen] at h1
        exact Bool.noConfusion h1
      · have hlen2 : ¬ jf2.batchedRequestLimit < (S.length : Int) := by omega
        simp only [JSONRPCFilter.isBatchRequestBlocked, gt_iff_lt, hlen, hlen2, if_false] at h1 h2
        rw [isBatchRequestBlockedLoop_iff] at h2
        obtain ⟨c, hc, hb⟩ := h2
        have h1t : jf1.isBatchRequestBlockedLoop S = true :=
          (isBatchRequestBlockedLoop_iff jf1 S).mpr ⟨c, hc, hsingle c hb⟩
        rw [h1t] at h1
        exact Bool.noConfusion h1

/-- Witness of C19: from the allowlist `[eth_call]` and limit 1 to a longer allowlist and
limit 3. -/
theorem loosening_never_blocks_more_witness :
    (∀ s : String, s ∈ (exampleFilter 1).allowlist →
      s ∈ ["eth_getBalance", "eth_call"]) ∧
    (exampleFilter 1).batchedRequestLimit ≤ 3 ∧
    (exampleFilter 1).isBatchRequestBlocked [{ Method := "eth_call" }] = false ∧
    JSONRPCFilter.isBatchRequestBlocked
        { next := { id := 7 }, allowlist := ["eth_getBalance", "eth_call"],
          batchedRequestLimit := 3, name := "g" } [{ Method := "eth_call" }] = false :=
  ⟨by intro s hs; simp only [exampleFilter, List.mem_singleton] at hs; simp [hs],
    by decide, by decide,
    (loosening_never_blocks_more (exampleFilter 1)
      { next := { id := 7 }, allowlist := ["eth_getBalance", "eth_call"],
        batchedRequestLimit := 3, name := "g" }
      (by intro s hs; simp only [exampleFilter, List.mem_singleton] at hs; simp [hs])
      (by decide)).2 [{ Method := "eth_call" }] (by decide)⟩

/-! ## The limit of a constructed filter -/

/-- C16, as stated, fails: `New` accepts a configuration whose limit is 0 and returns, with
no error, a filter whose limit is 0. -/
theorem New_accepts_limit_zero :
    New { id := 0 } { id := 7 } { Allowlist := ["eth_call"], BatchedRequestLimit := 0 } "f" =
      (some (exampleFilter 0), none) ∧
    ¬ (1 ≤ (exampleFilter 0).batchedRequestLimit) :=
  ⟨rfl, by decide⟩

/-- C16, amended: every filter `New` returns without error stores the limit of the
configuration unchanged, so its limit is at least 1 exactly when the configured limit is;
`New` rejects a configuration for an empty allowlist only, and the limit that `CreateConfig`
sets is 1. -/
theorem New_stores_limit (ctx : Context) (next : Handler) (config : Config) (name : String)
    (hok : (New ctx next config name).2 = none) :
    (∃ jf : JSONRPCFilter, (New ctx next config name).1 = some jf ∧
      jf.batchedRequestLimit = config.BatchedRequestLimit ∧
      (1 ≤ jf.batchedRequestLimit ↔ 1 ≤ config.BatchedRequestLimit)) ∧
    config.Allowlist ≠ [] ∧
    CreateConfig.BatchedRequestLimit = 1 := by
  by_cases hlen : config.Allowlist.length = 0
  · simp [New, hlen] at hok
  · refine ⟨⟨{ allowlist := config.Allowlist, batchedRequestLimit := config.BatchedRequestLimit,
               next := next, name := name }, ?_, rfl, Iff.rfl⟩, ?_, rfl⟩
    · simp [New, hlen]
    · intro hnil
      exact hlen (by rw [hnil]; rfl)

/-- Witness of C16, amended: a configuration with limit -3 is accepted and the filter keeps
the limit -3. -/
theorem New_stores_limit_witness :
    (New { id := 0 } { id := 7 } { Allowlist := ["eth_call"], BatchedRequestLimit := -3 }
      "f").2 = none ∧
    ((∃ jf : JSONRPCFilter,
      (New { id := 0 } { id := 7 } { Allowlist := ["eth_call"], BatchedRequestLimit := -3 }
        "f").1 = some jf ∧
      jf.batchedRequestLimit =
        ({ Allowlist := ["eth_call"], BatchedRequestLimit := -3 } : Config).BatchedRequestLimit ∧
      (1 ≤ jf.batchedRequestLimit ↔
        1 ≤ ({ Allowlist := ["eth_call"], BatchedRequestLimit := -3 } :
          Config).BatchedRequestLimit)) ∧
    ({ Allowlist := ["eth_call"], BatchedRequestLimit := -3 } : Config).Allowlist ≠ [] ∧
    CreateConfig.BatchedRequestLimit = 1) :=
  ⟨rfl, New_stores_limit { id := 0 } { id := 7 }
    { Allowlist := ["eth_call"], BatchedRequestLimit := -3 } "f" rfl⟩

/-! ## Lemmas on the decoder and on the paths of the handler -/

theorem ServeHTTP_of_single (jf : JSONRPCFilter) (json : Unmarshal) (req : Request)
    (c : JSONRPCRequest)
    (hread : (ReadAll req.Body).2 = none)
    (hdec : json.single (ReadAll req.Body).1 = Except.ok c) :
    (jf.ServeHTTP json req).2 =
      [Effect.readAll, Effect.close, Effect.unmarshal Target.single,
       if jf.isSingleRequestBlocked c = true then
         Effect.error "JSON-RPC method blocked" StatusForbidden
       else
         Effect.serve jf.next
           { req with Body := NopCloser (NewBuffer (ReadAll req.Body).1) }] := by
  simp only [ReadAll] at hread hdec
  cases hb : jf.isSingleRequestBlocked c <;>
    simp [JSONRPCFilter.ServeHTTP, ReadAll, hread, hdec, hb]

theorem ServeHTTP_of_both_fail (jf : JSONRPCFilter) (json : Unmarshal) (req : Request)
    (e1 e2 : String)
    (hread : (ReadAll req.Body).2 = none)
    (hsingle : json.single (ReadAll req.Body).1 = Except.error e1)
    (hbatch : json.batch (ReadAll req.Body).1 = Except.error e2) :
    (jf.ServeHTTP json req).2 =
      [Effect.readAll, Effect.close, Effect.unmarshal Target.single,
       Effect.unmarshal Target.batch,
       Effect.serve jf.next
         { req with Body := NopCloser (NewBuffer (ReadAll req.Body).1) }] := by
  simp only [ReadAll] at hread hsingle hbatch
  simp [JSONRPCFilter.ServeHTTP, ReadAll, hread, hsingle, hbatch]

theorem storeMembers_empty_method (members : List (String × JSON)) (saved : Option String)
    (hmethod : ∀ (key : String) (v : JSON), (key, v) ∈ members →
      isMethodKey key = true → v = JSON.string "") :
    storeMembers { Method := "" } saved members = ({ Method := "" }, saved) := by
  induction members with
  | nil => rfl
  | cons kv rest ih =>
    obtain ⟨key, v⟩ := kv
    have hrest : ∀ (k : String) (x : JSON), (k, x) ∈ rest →
        isMethodKey k = true → x = JSON.string "" :=
      fun k x hk => hmethod k x (List.mem_cons_of_mem _ hk)
    by_cases hkey : isMethodKey key = true
    · have hv : v = JSON.string "" := hmethod key v (List.mem_cons_self _ _) hkey
      subst hv
      simp only [storeMembers, hkey, if_true, storeMethod]
      exact ih hrest
    · simp only [storeMembers, hkey]
      exact ih hrest

theorem storeMethod_saved (cur e : String) (v : JSON) :
    (storeMethod cur (some e) v).2 = some e := by
  cases v <;> rfl

theorem storeMembers_saved (members : List (String × JSON)) (cur : JSONRPCRequest)
    (e : String) :
    (storeMembers cur (some e) members).2 = some e := by
  induction members generalizing cur with
  | nil => rfl
  | cons kv rest ih =>
    obtain ⟨key, v⟩ := kv
    by_cases hkey : isMethodKey key = true
    · simp only [storeMembers, hkey, if_true, storeMethod_saved]
      exact ih _
    · simp only [storeMembers, hkey]
      exact ih _

theorem storeRequest_saved (cur : JSONRPCRequest) (e : String) (v : JSON) :
    (storeRequest cur (some e) v).2 = some e := by
  cases v with
  | object members => exact storeMembers_saved members cur e
  | _ => rfl

theorem storeElems_saved (elems : List JSON) (acc : List JSONRPCRequest) (e : String) :
    (storeElems acc (some e) elems).2 = some e := by
  induction elems generalizing acc with
  | nil => rfl
  | cons v rest ih =>
    simp only [storeElems, storeRequest_saved]
    exact ih _

theorem storeElems_error (elems : List JSON)
    (hbad : ∃ x ∈ elems, (storeRequest { Method := "" } none x).2 ≠ none)
    (acc : List JSONRPCRequest) (saved : Option String) :
    (storeElems acc saved elems).2 ≠ none := by
  induction elems generalizing acc saved with
  | nil =>
    obtain ⟨x, hx, _⟩ := hbad
    exact absurd hx (List.not_mem_nil x)
  | cons v rest ih =>
    simp only [storeElems]
    obtain ⟨x, hx, hxe⟩ := hbad
    rcases List.mem_cons.mp hx with hxv | hxr
    · subst hxv
      cases saved with
      | some e =>
        rw [storeRequest_saved, storeElems_saved]
        exact Option.some_ne_none e
      | none =>
        cases hs : (storeRequest { Method := "" } none x).2 with
        | none => exact absurd hs hxe
        | some e =>
          rw [storeElems_saved]
          exact Option.some_ne_none e
    · exact ih ⟨x, hxr, hxe⟩ _ _

theorem jsonUnmarshal_single_scalar_or_array (parse : Bytes → Option JSON) (body : Bytes)
    (v : JSON) (hparse : parse body = some v)
    (hkind : v.isScalar = true ∨ ∃ elems, v = JSON.array elems) :
    (jsonUnmarshal parse).single body =
      Except.error (typeError v "traefik_jsonrpc_filter.JSONRPCRequest") := by
  rcases hkind with hk | ⟨elems, rfl⟩
  · cases v with
    | null => exact absurd hk (Bool.noConfusion)
    | array elems => exact absurd hk (Bool.noConfusion)
    | object members => exact absurd hk (Bool.noConfusion)
    | bool b => simp [jsonUnmarshal, hparse, storeRequest, saveError]
    | number literal => simp [jsonUnmarshal, hparse, storeRequest, saveError]
    | string s => simp [jsonUnmarshal, hparse, storeRequest, saveError]
  · simp [jsonUnmarshal, hparse, storeRequest, saveError]

theorem jsonUnmarshal_batch_scalar (parse : Bytes → Option JSON) (body : Bytes)
    (v : JSON) (hparse : parse body = some v) (hkind : v.isScalar = true) :
    (jsonUnmarshal parse).batch body =
      Except.error (typeError v "[]traefik_jsonrpc_filter.JSONRPCRequest") := by
  cases v with
  | null => exact absurd hkind (Bool.noConfusion)
  | array elems => exact absurd hkind (Bool.noConfusion)
  | object members => exact absurd hkind (Bool.noConfusion)
  | bool b => simp [jsonUnmarshal, hparse, storeSlice, saveError]
  | number literal => simp [jsonUnmarshal, hparse, storeSlice, saveError]
  | string s => simp [jsonUnmarshal, hparse, storeSlice, saveError]

/-! ## Bodies of particular JSON shapes -/

/-- C12, as stated, fails on the body `{"METHOD":"eth_call"}`: the object has no member
named `method`, so its method field is missing, and the empty string is not in the
allowlist; yet the decoder takes the key `METHOD` for the field, the single decode gives
`Method = "eth_call"`, and a filter that allows `eth_call` forwards the request instead of
answering 403. -/
theorem ServeHTTP_method_key_of_other_case :
    exampleParse (bytesOf "\x7b\"METHOD\":\"eth_call\"\x7d") =
      some (JSON.object [("METHOD", JSON.string "eth_call")]) ∧
    (∀ (key : String) (v : JSON),
      (key, v) ∈ [("METHOD", JSON.string "eth_call")] → key ≠ "method") ∧
    "" ∉ (exampleFilter 1).allowlist ∧
    (jsonUnmarshal exampleParse).single (bytesOf "\x7b\"METHOD\":\"eth_call\"\x7d") =
      Except.ok { Method := "eth_call" } ∧
    ((exampleFilter 1).ServeHTTP (jsonUnmarshal exampleParse)
        (exampleRequest (bytesOf "\x7b\"METHOD\":\"eth_call\"\x7d") none)).2 =
      [Effect.readAll, Effect.close, Effect.unmarshal Target.single,
       Effect.serve (exampleFilter 1).next
         (exampleRequest (bytesOf "\x7b\"METHOD\":\"eth_call\"\x7d") none)] ∧
    ((exampleFilter 1).ServeHTTP (jsonUnmarshal exampleParse)
        (exampleRequest (bytesOf "\x7b\"METHOD\":\"eth_call\"\x7d") none)).2 ≠
      [Effect.readAll, Effect.close, Effect.unmarshal Target.single,
       Effect.error "JSON-RPC method blocked" StatusForbidden] :=
  ⟨rfl,
    by
      intro key v hmem
      rw [List.mem_singleton, Prod.mk.injEq] at hmem
      rw [hmem.1]
      decide,
    by decide, rfl, by decide, by decide⟩

/-- C12, amended: when the body is a JSON object in which every member whose key equals
`method` exactly or up to the case of its letters holds the empty string (there may be no
such member), the single decode gives a call with `Method = ""`, and `ServeHTTP` answers
403 `JSON-RPC method blocked` unless the allowlist contains the empty string, in which case
it forwards; `isSingleRequestBlocked` on a call with `Method = ""` is true exactly when the
empty string is not in the allowlist. -/
theorem ServeHTTP_empty_method (jf : JSONRPCFilter) (parse : Bytes → Option JSON)
    (req : Request) (members : List (String × JSON))
    (hread : (ReadAll req.Body).2 = none)
    (hparse : parse (ReadAll req.Body).1 = some (JSON.object members))
    (hmethod : ∀ (key : String) (v : JSON), (key, v) ∈ members →
      isMethodKey key = true → v = JSON.string "") :
    (jsonUnmarshal parse).single (ReadAll req.Body).1 = Except.ok { Method := "" } ∧
    ("" ∉ jf.allowlist →
      (jf.ServeHTTP (jsonUnmarshal parse) req).2 =
        [Effect.readAll, Effect.close, Effect.unmarshal Target.single,
         Effect.error "JSON-RPC method blocked" StatusForbidden]) ∧
    ("" ∈ jf.allowlist →
      (jf.ServeHTTP (jsonUnmarshal parse) req).2 =
        [Effect.readAll, Effect.close, Effect.unmarshal Target.single,
         Effect.serve jf.next
           { req with Body := NopCloser (NewBuffer (ReadAll req.Body).1) }]) ∧
    (jf.isSingleRequestBlocked { Method := "" } = true ↔ "" ∉ jf.allowlist) := by
  have hdec : (jsonUnmarshal parse).single (ReadAll req.Body).1 =
      Except.ok { Method := "" } := by
    simp [jsonUnmarshal, hparse, storeRequest, storeMembers_empty_method members none hmethod]
  have hrun := ServeHTTP_of_single jf (jsonUnmarshal parse) req { Method := "" } hread hdec
  have hiff := isSingleRequestBlocked_iff jf { Method := "" }
  refine ⟨hdec, ?_, ?_, hiff⟩
  · intro hnot
    rw [hrun, if_pos (hiff.mpr hnot)]
  · intro hin
    have hnb : ¬ jf.isSingleRequestBlocked { Method := "" } = true :=
      fun hb => (hiff.mp hb) hin
    rw [hrun, if_neg hnb]

/-- Witness of C12, amended: the body `{"id":1}`, which has no method member, is answered
403 by a filter that allows `eth_call` only. -/
theorem ServeHTTP_empty_method_witness :
    (ReadAll (exampleRequest (bytesOf "\x7b\"id\":1\x7d") none).Body).2 = none ∧
    exampleParse (ReadAll (exampleRequest (bytesOf "\x7b\"id\":1\x7d") none).Body).1 =
      some (JSON.object [("id", JSON.number "1")]) ∧
    "" ∉ (exampleFilter 1).allowlist ∧
    ((exampleFilter 1).ServeHTTP (jsonUnmarshal exampleParse)
        (exampleRequest (bytesOf "\x7b\"id\":1\x7d") none)).2 =
      [Effect.readAll, Effect.close, Effect.unmarshal Target.single,
       Effect.error "JSON-RPC method blocked" StatusForbidden] :=
  ⟨rfl, rfl, by decide,
    (ServeHTTP_empty_method (exampleFilter 1) exampleParse
      (exampleRequest (bytesOf "\x7b\"id\":1\x7d") none) [("id", JSON.number "1")] rfl rfl
      (by
        intro key v hmem hkey
        rw [List.mem_singleton, Prod.mk.injEq] at hmem
        rw [hmem.1] at hkey
        exact absurd hkey (by decide))).2.1 (by decide)⟩

/-- C13, as stated, fails on the body `null`: the single decode succeeds on it with the zero
call, and a filter that allows `eth_call` only answers 403 and does not forward. -/
theorem ServeHTTP_null_blocked :
    exampleParse (bytesOf "null") = some JSON.null ∧
    (jsonUnmarshal exampleParse).single (bytesOf "null") = Except.ok { Method := "" } ∧
    ((exampleFilter 1).ServeHTTP (jsonUnmarshal exampleParse)
        (exampleRequest (bytesOf "null") none)).2 =
      [Effect.readAll, Effect.close, Effect.unmarshal Target.single,
       Effect.error "JSON-RPC method blocked" StatusForbidden] :=
  ⟨rfl, rfl, by decide⟩

/-- C13, amended: when the body is a JSON string, number or boolean, neither decode
succeeds and `ServeHTTP` forwards the request to the next handler and writes no 403, for
every allowlist and limit; when the body is `null`, the single decode succeeds with
`Method = ""` and the request takes the single path. -/
theorem ServeHTTP_literal_body (jf : JSONRPCFilter) (parse : Bytes → Option JSON)
    (req : Request) (v : JSON)
    (hread : (ReadAll req.Body).2 = none)
    (hparse : parse (ReadAll req.Body).1 = some v) :
    (v.isScalar = true →
      (∃ e, (jsonUnmarshal parse).single (ReadAll req.Body).1 = Except.error e) ∧
      (∃ e, (jsonUnmarshal parse).batch (ReadAll req.Body).1 = Except.error e) ∧
      (jf.ServeHTTP (jsonUnmarshal parse) req).2 =
        [Effect.readAll, Effect.close, Effect.unmarshal Target.single,
         Effect.unmarshal Target.batch,
         Effect.serve jf.next
           { req with Body := NopCloser (NewBuffer (ReadAll req.Body).1) }]) ∧
    (v = JSON.null →
      (jsonUnmarshal parse).single (ReadAll req.Body).1 = Except.ok { Method := "" } ∧
      (jf.ServeHTTP (jsonUnmarshal parse) req).2 =
        [Effect.readAll, Effect.close, Effect.unmarshal Target.single,
         if jf.isSingleRequestBlocked { Method := "" } = true then
           Effect.error "JSON-RPC method blocked" StatusForbidden
         else
           Effect.serve jf.next
             { req with Body := NopCloser (NewBuffer (ReadAll req.Body).1) }]) := by
  constructor
  · intro hkind
    have hs := jsonUnmarshal_single_scalar_or_array parse _ v hparse (Or.inl hkind)
    have hb := jsonUnmarshal_batch_scalar parse _ v hparse hkind
    exact ⟨⟨_, hs⟩, ⟨_, hb⟩, ServeHTTP_of_both_fail jf _ req _ _ hread hs hb⟩
  · intro hnull
    subst hnull
    have hdec : (jsonUnmarshal parse).single (ReadAll req.Body).1 =
        Except.ok { Method := "" } := by
      simp [jsonUnmarshal, hparse, storeRequest]
    exact ⟨hdec, ServeHTTP_of_single jf _ req _ hread hdec⟩

/-- Witness of C13, amended: the JSON string body `"not json-rpc at all"` is forwarded. -/
theorem ServeHTTP_literal_body_witness :
    (ReadAll (exampleRequest (bytesOf "\"not json-rpc at all\"") none).Body).2 = none ∧
    exampleParse (ReadAll (exampleRequest (bytesOf "\"not json-rpc at all\"") none).Body).1 =
      some (JSON.string "not json-rpc at all") ∧
    (JSON.string "not json-rpc at all").isScalar = true ∧
    ((exampleFilter 1).ServeHTTP (jsonUnmarshal exampleParse)
        (exampleRequest (bytesOf "\"not json-rpc at all\"") none)).2 =
      [Effect.readAll, Effect.close, Effect.unmarshal Target.single,
       Effect.unmarshal Target.batch,
       Effect.serve (exampleFilter 1).next
         (exampleRequest (bytesOf "\"not json-rpc at all\"") none)] :=
  ⟨rfl, rfl, rfl,
    ((ServeHTTP_literal_body (exampleFilter 1) exampleParse
      (exampleRequest (bytesOf "\"not json-rpc at all\"") none)
      (JSON.string "not json-rpc at all") rfl rfl).1 rfl).2.2⟩

/-- C17: a JSON array with an element that does not decode as a call is forwarded whatever
calls it holds: the sequence decode fails as a whole, the single decode fails on an array,
so the fail-open branch is taken and the run is the same for every allowlist and every batch
limit. The body `[{"method":"eth_sendTransaction"},1]` is such an array. -/
theorem ServeHTTP_array_with_bad_element (jf : JSONRPCFilter) (parse : Bytes → Option JSON)
    (req : Request) (elems : List JSON)
    (hread : (ReadAll req.Body).2 = none)
    (hparse : parse (ReadAll req.Body).1 = some (JSON.array elems))
    (hbad : ∃ x ∈ elems, (storeRequest { Method := "" } none x).2 ≠ none) :
    (∃ e, (jsonUnmarshal parse).single (ReadAll req.Body).1 = Except.error e) ∧
    (∃ e, (jsonUnmarshal parse).batch (ReadAll req.Body).1 = Except.error e) ∧
    (jf.ServeHTTP (jsonUnmarshal parse) req).2 =
      [Effect.readAll, Effect.close, Effect.unmarshal Target.single,
       Effect.unmarshal Target.batch,
       Effect.serve jf.next
         { req with Body := NopCloser (NewBuffer (ReadAll req.Body).1) }] ∧
    (∀ (allowlist : List String) (limit : Int),
      JSONRPCFilter.ServeHTTP
          { jf with allowlist := allowlist, batchedRequestLimit := limit }
          (jsonUnmarshal parse) req =
        jf.ServeHTTP (jsonUnmarshal parse) req) := by
  have hs := jsonUnmarshal_single_scalar_or_array parse _ (JSON.array elems) hparse
    (Or.inr ⟨elems, rfl⟩)
  have hb : ∃ e, (jsonUnmarshal parse).batch (ReadAll req.Body).1 = Except.error e := by
    have herr := storeElems_error elems hbad [] none
    cases hse : (storeElems [] none elems).2 with
    | none => exact absurd hse herr
    | some e => exact ⟨e, by simp [jsonUnmarshal, hparse, storeSlice, hse]⟩
  obtain ⟨e2, hb2⟩ := hb
  refine ⟨⟨_, hs⟩, ⟨e2, hb2⟩, ServeHTTP_of_both_fail jf _ req _ _ hread hs hb2, ?_⟩
  intro allowlist limit
  have h1 := (ServeHTTP_run jf (jsonUnmarshal parse) req).1
  have h2 := (ServeHTTP_run { jf with allowlist := allowlist, batchedRequestLimit := limit }
    (jsonUnmarshal parse) req).1
  have t1 := ServeHTTP_of_both_fail jf _ req _ _ hread hs hb2
  have t2 := ServeHTTP_of_both_fail
    { jf with allowlist := allowlist, batchedRequestLimit := limit } _ req _ _ hread hs hb2
  exact Prod.ext (h2.trans h1.symm) (t2.trans t1.symm)

/-- Witness of C17: the body `[{"method":"eth_sendTransaction"},1]` holds a call whose
method is not allowed and an element `1`; a filter that allows `eth_call` only, with batch
limit 1, forwards it. -/
theorem ServeHTTP_array_with_bad_element_witness :
    (ReadAll (exampleRequest
      (bytesOf "[\x7b\"method\":\"eth_sendTransaction\"\x7d,1]") none).Body).2 = none ∧
    exampleParse (ReadAll (exampleRequest
      (bytesOf "[\x7b\"method\":\"eth_sendTransaction\"\x7d,1]") none).Body).1 =
      some (JSON.array [JSON.object [("method", JSON.string "eth_sendTransaction")],
        JSON.number "1"]) ∧
    (exampleFilter 1).isSingleRequestBlocked { Method := "eth_sendTransaction" } = true ∧
    (exampleFilter 1).isBatchRequestBlocked
      [{ Method := "eth_sendTransaction" }, { Method := "" }] = true ∧
    ((exampleFilter 1).ServeHTTP (jsonUnmarshal exampleParse) (exampleRequest
      (bytesOf "[\x7b\"method\":\"eth_sendTransaction\"\x7d,1]") none)).2 =
      [Effect.readAll, Effect.close, Effect.unmarshal Target.single,
       Effect.unmarshal Target.batch,
       Effect.serve (exampleFilter 1).next (exampleRequest
         (bytesOf "[\x7b\"method\":\"eth_sendTransaction\"\x7d,1]") none)] :=
  ⟨rfl, rfl, by decide, by decide,
    (ServeHTTP_array_with_bad_element (exampleFilter 1) exampleParse (exampleRequest
      (bytesOf "[\x7b\"method\":\"eth_sendTransaction\"\x7d,1]") none)
      [JSON.object [("method", JSON.string "eth_sendTransaction")], JSON.number "1"] rfl rfl
      ⟨JSON.number "1", List.mem_cons_of_mem _ (List.mem_singleton.mpr rfl),
        by simp [storeRequest, saveError]⟩).2.2.1⟩

end JsonRpcFilter
